import Mathlib

/-!
Shallow embedding of `src/main.py` of the hub-etl-pipeline repository.

Texts (Python strings) are modelled as `List Char`; the process-wide set
`app.state.seen_Sha` as a `List String` queried through `List.contains`;
HTTP interactions as explicit response functions passed to the embedded
operations; the cooperative scheduler of the embedding stage as a step
relation on task phases.
-/

namespace HubEtl

/-! ## Webhook deduplication (`post_webhook`, src/main.py lines 54-74) -/

structure WebhookEvent where
  action : String
  scope : String
deriving DecidableEq

structure WebhookRepo where
  type : String
  headSha : String
  name : String
deriving DecidableEq

structure WebhookPayload where
  event : WebhookEvent
  repo : WebhookRepo
deriving DecidableEq

/-- The three payload-field conditions of the guard in `post_webhook`
(everything except the seen-set membership test).  Python's
`scope.startswith("repo.content")` is a character-prefix test, written here
over the character lists of the two strings. -/
def validEvent (p : WebhookPayload) : Bool :=
  p.event.action == "update"
    && "repo.content".toList.isPrefixOf p.event.scope.toList
    && p.repo.type == "dataset"

/-- `post_webhook` from src/main.py lines 54-74, as a state transformer on the
seen-sha set: the guard rejects (returning `processed: False`, state unchanged)
unless the event is a dataset `repo.content` update whose `headSha` is unseen;
otherwise the sha is added to `app.state.seen_Sha` and the two background tasks
are scheduled (task scheduling is not part of the returned state here).
Returns `(processed, seen_Sha after the call)`. -/
def post_webhook (p : WebhookPayload) (seen : List String) : Bool × List String :=
  if !(validEvent p && !(seen.contains p.repo.headSha)) then
    (false, seen)
  else
    (true, p.repo.headSha :: seen)

/-! ## Chunker (`Chunker.const_splitter`, src/main.py lines 98-102) -/

/-- `Chunker.const_splitter`: `[text[i*L:(i+1)*L] for i in range(ceil(len(text)/L))]`.
Python's `int(np.ceil(len(text) / L))` is the ceiling division `(n + L - 1) / L`
on naturals; the slice `text[a:b]` is `(text.drop a).take (b - a)`. -/
def const_splitter (chunkLen : Nat) (text : List Char) : List (List Char) :=
  (List.range ((text.length + chunkLen - 1) / chunkLen)).map
    (fun i => (text.drop (i * chunkLen)).take chunkLen)

/-- `chunk_generator` from src/main.py lines 105-110: iterate the input records
in order, split each, and yield every non-empty chunk, preserving order. -/
def chunk_generator (split : List Char → List (List Char))
    (input : List (List Char)) : List (List Char) :=
  (input.map (fun text => (split text).filter (fun chunk => !chunk.isEmpty))).flatten

/-! ## Embedding client (`embed_sent`, src/main.py lines 144-164)

Vector values are opaque to the pipeline (they are parsed JSON floats that are
only carried around), so the embedding layer is parametric in a vector type `V`.
An HTTP response of the TEI endpoint is its status code, its raw body text
(returned by `resp.text()`), and its parsed JSON payload (a list whose first
element is the vector). -/

structure TeiResponse (V : Type) where
  status : Nat
  body : String
  payload : List V
deriving DecidableEq

/-- The POST request issued by `embed_sent`: JSON body
`inputs = sentence, truncate = True`, with a bearer-token auth header. -/
structure PostRequest where
  inputs : List Char
  truncate : Bool
  bearerToken : String
deriving DecidableEq

inductive EmbedError where
  /-- `raise RuntimeError(await resp.text())` on a non-200 status. -/
  | httpError (body : String)
  /-- Python `result[0]` on an empty JSON array raises `IndexError`. -/
  | indexError
deriving DecidableEq

/-- One line written to the scratch file: `vector = result[0]` paired with the
originating sentence. -/
structure EmbedRecord (V : Type) where
  vector : V
  text : List Char
deriving DecidableEq

/-- `embed_sent` from src/main.py lines 144-164, for one sentence: the request
it posts, and either the scratch-file record it appends or the error it raises.
The semaphore acquisition around the body is modelled separately (see
`SemStep`); `resp` is the endpoint's response to this request. -/
def embed_sent (token : String) (sentence : List Char) (resp : TeiResponse V) :
    PostRequest × Except EmbedError (EmbedRecord V) :=
  (⟨sentence, true, token⟩,
   if resp.status ≠ 200 then
     .error (.httpError resp.body)
   else
     match resp.payload with
     | [] => .error .indexError
     | v :: _ => .ok ⟨v, sentence⟩)

/-- Python truthiness of `row[INPUT_TEXT_COL].strip()`: the text has at least
one non-whitespace character. -/
def isNonBlank (text : List Char) : Bool :=
  text.any (fun c => !c.isWhitespace)

/-- `embed` from src/main.py lines 167-177.  One task is created per row whose
stripped text is truthy; `tqdm_asyncio.gather` waits for all of them and
re-raises the first failure.  The cooperative interleaving is determinised to
job order: the returned triple is (requests issued, records appended to the
scratch file by tasks that succeeded, first error raised by a failed task, if
any).  The claims proved below do not depend on the append order. -/
def embed (token : String) (rows : List (List Char))
    (resp : List Char → TeiResponse V) :
    List PostRequest × List (EmbedRecord V) × Option EmbedError :=
  let jobs := rows.filter isNonBlank
  let results := jobs.map (fun r => embed_sent token r (resp r))
  (results.map Prod.fst,
   results.filterMap (fun p => p.2.toOption),
   (results.filterMap (fun p =>
     match p.2 with
     | .error e => some e
     | .ok _ => none)).head?)

/-! ## Readiness probe (`wake_up_endpoint`, src/main.py lines 180-191) -/

/-- Outcome of the probe loop: how many GET requests were issued and how many
2-second sleeps were performed before it returned or raised `TimeoutError`. -/
inductive ProbeResult where
  | success (gets : Nat) (sleeps : Nat)
  | timeout (gets : Nat) (sleeps : Nat)
deriving DecidableEq

def ProbeResult.gets : ProbeResult → Nat
  | .success n _ => n
  | .timeout n _ => n

def ProbeResult.isSuccess : ProbeResult → Bool
  | .success _ _ => true
  | .timeout _ _ => false

/-- The loop body of `wake_up_endpoint`, with `fuel = 40 - n_loop`:
each iteration issues `GET` number `gets` (so `resp gets` is its status);
on a non-200 status it sleeps 2 s, increments `n_loop`, and raises
`TimeoutError` when `n_loop > 40` — which, since `n_loop` enters an iteration
equal to `40 - fuel`, happens exactly when `fuel = 0`. -/
def wakeUpGo (resp : Nat → Nat) : Nat → Nat → Nat → ProbeResult
  | fuel, gets, sleeps =>
    if resp gets = 200 then
      .success (gets + 1) sleeps
    else
      match fuel with
      | 0 => .timeout (gets + 1) (sleeps + 1)
      | fuel + 1 => wakeUpGo resp fuel (gets + 1) (sleeps + 1)

/-- `wake_up_endpoint` from src/main.py lines 180-191: starts with
`n_loop = 0`, i.e. fuel 40, no requests issued yet.  `resp i` is the status
code the endpoint returns to the `i`-th GET (0-indexed). -/
def wake_up_endpoint (resp : Nat → Nat) : ProbeResult :=
  wakeUpGo resp 40 0 0

/-! ## Embed pipeline (`embed_dataset`, src/main.py lines 194-209) -/

inductive RunError where
  /-- `TimeoutError` propagated from `wake_up_endpoint`. -/
  | probeTimeout
  | embedFailed (e : EmbedError)
deriving DecidableEq

/-- Observable events of one `embed_dataset` run, in order. -/
inductive RunEvent (V : Type) where
  /-- `tempfile.NamedTemporaryFile(...)` creates the scratch file. -/
  | createScratch
  /-- a completed task appends one JSON line. -/
  | appendLine (rec : EmbedRecord V)
  /-- `dataset.push_to_hub(EMBED_DS_NAME, ...)` with the rows read back from
  the scratch file. -/
  | publish (recs : List (EmbedRecord V))
  /-- the `with` block closes (and thereby deletes) the temporary file. -/
  | deleteScratch
deriving DecidableEq

/-- `embed_dataset` from src/main.py lines 194-209: wake the endpoint (its
`TimeoutError` aborts the run before the scratch file exists), then inside a
`with tempfile.NamedTemporaryFile(...)` block run `embed` and, if it did not
raise, read the scratch file back and publish it.  Python's `with` statement
closes the file on both the normal and the exceptional exit of the block, and
closing a `NamedTemporaryFile` deletes it, so `deleteScratch` ends the trace on
both branches.  Returns the event trace and the error the run raised, if any. -/
def embed_dataset (token : String) (probeResp : Nat → Nat)
    (rows : List (List Char)) (resp : List Char → TeiResponse V) :
    List (RunEvent V) × Option RunError :=
  if (wake_up_endpoint probeResp).isSuccess then
    match embed token rows resp with
    | (_, appended, none) =>
      (([.createScratch] ++ appended.map .appendLine ++ [.publish appended])
        ++ [.deleteScratch], none)
    | (_, appended, some e) =>
      (([.createScratch] ++ appended.map .appendLine)
        ++ [.deleteScratch], some (.embedFailed e))
  else
    ([], some .probeTimeout)

/-! ## Concurrency protocol of the embedding tasks (src/main.py lines 144-145,
167-176)

`embed` guards the whole body of every `embed_sent` task with
`async with semaphore` for one shared `asyncio.BoundedSemaphore(bound)`.
The cooperative scheduler is modelled as a step relation on the phase vector
of the launched tasks: a waiting task may enter its request section only while
fewer than `bound` tasks are inside (semaphore acquire), and a task inside may
complete (semaphore release). -/

inductive TaskPhase where
  /-- created, still blocked on the semaphore. -/
  | waiting
  /-- holding a semaphore slot, request in flight. -/
  | running
  /-- request finished, slot released. -/
  | done
deriving DecidableEq

/-- Number of embedding requests currently executing. -/
def countRunning : List TaskPhase → Nat
  | [] => 0
  | .running :: rest => countRunning rest + 1
  | _ :: rest => countRunning rest

/-- One scheduler step of the embedding stage. -/
inductive SemStep (bound : Nat) : List TaskPhase → List TaskPhase → Prop where
  /-- `async with semaphore` admits a waiting task only while the semaphore has
  a free slot, i.e. fewer than `bound` holders. -/
  | acquire (ph : List TaskPhase) (i : Nat) (h : ph[i]? = some .waiting)
      (hb : countRunning ph < bound) :
      SemStep bound ph (ph.set i .running)
  /-- leaving the `async with` block releases the slot. -/
  | release (ph : List TaskPhase) (i : Nat) (h : ph[i]? = some .running) :
      SemStep bound ph (ph.set i .done)

/-- States reachable by the scheduler from the launch of `n` tasks (all of them
blocked on the semaphore at creation). -/
inductive SemReach (bound n : Nat) : List TaskPhase → Prop where
  | init : SemReach bound n (List.replicate n .waiting)
  | step (ph ph2 : List TaskPhase) :
      SemReach bound n ph → SemStep bound ph ph2 → SemReach bound n ph2

/-! ## Helper lemmas about `const_splitter` -/

lemma const_splitter_nil (L : Nat) : const_splitter L [] = [] := by
  rcases L with _ | l
  · simp [const_splitter]
  · simp [const_splitter, Nat.div_eq_of_lt (Nat.lt_succ_self l)]

lemma ceil_div_succ {n L : Nat} (hL : 1 ≤ L) (hn : 1 ≤ n) :
    (n + L - 1) / L = (n - L + L - 1) / L + 1 := by
  rcases le_or_lt n L with h | h
  · have h0 : n - L = 0 := Nat.sub_eq_zero_of_le h
    have hdiv : (L - 1) / L = 0 := Nat.div_eq_of_lt (by omega)
    have hdiv2 : (n + L - 1) / L = 1 := Nat.div_eq_of_lt_le (by omega) (by omega)
    rw [h0, Nat.zero_add, hdiv, hdiv2]
  · have heq : n + L - 1 = (n - L + L - 1) + L := by omega
    rw [heq, Nat.add_div_right _ (by omega)]

lemma const_splitter_cons {L : Nat} (hL : 1 ≤ L) {t : List Char} (ht : t ≠ []) :
    const_splitter L t = t.take L :: const_splitter L (t.drop L) := by
  have hn : 1 ≤ t.length := List.length_pos.mpr ht
  unfold const_splitter
  rw [List.length_drop, ceil_div_succ hL hn, List.range_succ_eq_map,
    List.map_cons, List.map_map]
  congr 1
  · simp
  · apply List.map_congr_left
    intro i _
    simp only [Function.comp_apply, List.drop_drop]
    rw [show L + i * L = Nat.succ i * L by rw [Nat.succ_mul]; omega]

lemma const_splitter_eq_nil_iff {L : Nat} (hL : 1 ≤ L) {t : List Char} :
    const_splitter L t = [] ↔ t = [] := by
  constructor
  · intro h
    by_contra ht
    rw [const_splitter_cons hL ht] at h
    exact List.cons_ne_nil _ _ h
  · rintro rfl
    exact const_splitter_nil L

lemma const_splitter_flatten {L : Nat} (hL : 1 ≤ L) (t : List Char) :
    (const_splitter L t).flatten = t := by
  rcases eq_or_ne t [] with rfl | ht
  · simp [const_splitter_nil]
  · have hn : 1 ≤ t.length := List.length_pos.mpr ht
    rw [const_splitter_cons hL ht, List.flatten_cons,
      const_splitter_flatten hL (t.drop L), List.take_append_drop]
termination_by t.length
decreasing_by simp [List.length_drop]; omega

lemma const_splitter_mem {L : Nat} (hL : 1 ≤ L) (t : List Char) :
    ∀ c ∈ const_splitter L t, c ≠ [] ∧ c.length ≤ L := by
  rcases eq_or_ne t [] with rfl | ht
  · simp [const_splitter_nil]
  · have hn : 1 ≤ t.length := List.length_pos.mpr ht
    rw [const_splitter_cons hL ht]
    intro c hc
    rcases List.mem_cons.mp hc with rfl | hc
    · refine ⟨?_, ?_⟩
      · intro h
        rcases List.take_eq_nil_iff.mp h with h0 | h0
        · omega
        · exact ht h0
      · rw [List.length_take]
        exact min_le_left _ _
    · exact const_splitter_mem hL (t.drop L) c hc
termination_by t.length
decreasing_by simp [List.length_drop]; omega

lemma const_splitter_dropLast {L : Nat} (hL : 1 ≤ L) (t : List Char) :
    ∀ c ∈ (const_splitter L t).dropLast, c.length = L := by
  rcases eq_or_ne t [] with rfl | ht
  · simp [const_splitter_nil]
  · have hn : 1 ≤ t.length := List.length_pos.mpr ht
    rw [const_splitter_cons hL ht]
    rcases eq_or_ne (t.drop L) [] with hdrop | hdrop
    · rw [(const_splitter_eq_nil_iff hL).mpr hdrop]
      simp
    · have htail : const_splitter L (t.drop L) ≠ [] := by
        rw [Ne, const_splitter_eq_nil_iff hL]
        exact hdrop
      rw [List.dropLast_cons_of_ne_nil htail]
      intro c hc
      rcases List.mem_cons.mp hc with rfl | hc
      · have hlen : L < t.length := by
          by_contra hle
          exact hdrop (List.drop_eq_nil_of_le (by omega))
        rw [List.length_take]
        omega
      · exact const_splitter_dropLast hL (t.drop L) c hc
termination_by t.length
decreasing_by simp [List.length_drop]; omega

lemma const_splitter_length (L : Nat) (t : List Char) :
    (const_splitter L t).length = (t.length + L - 1) / L := by
  simp [const_splitter]

/-! ## Helper lemmas about the readiness probe -/

lemma wakeUpGo_gets_le (resp : Nat → Nat) :
    ∀ fuel gets sleeps, (wakeUpGo resp fuel gets sleeps).gets ≤ gets + fuel + 1 := by
  intro fuel
  induction fuel with
  | zero =>
    intro gets sleeps
    rw [wakeUpGo]
    split
    · simp [ProbeResult.gets]
    · simp [ProbeResult.gets]
  | succ f ih =>
    intro gets sleeps
    rw [wakeUpGo]
    split
    · simp only [ProbeResult.gets]
      omega
    · have := ih (gets + 1) (sleeps + 1)
      omega

lemma wakeUpGo_timeout (resp : Nat → Nat) :
    ∀ fuel gets sleeps n s, wakeUpGo resp fuel gets sleeps = .timeout n s →
      n = gets + fuel + 1 ∧ s = sleeps + fuel + 1
        ∧ ∀ i, gets ≤ i → i < gets + fuel + 1 → resp i ≠ 200 := by
  intro fuel
  induction fuel with
  | zero =>
    intro gets sleeps n s h
    rw [wakeUpGo] at h
    split at h
    · exact absurd h (by simp)
    · injection h with h1 h2
      refine ⟨by omega, by omega, ?_⟩
      intro i hi1 hi2
      have : i = gets := by omega
      subst this
      assumption
  | succ f ih =>
    intro gets sleeps n s h
    rw [wakeUpGo] at h
    split at h
    · exact absurd h (by simp)
    · have hfail : resp gets ≠ 200 := by assumption
      obtain ⟨h1, h2, h3⟩ := ih (gets + 1) (sleeps + 1) n s h
      refine ⟨by omega, by omega, ?_⟩
      intro i hi1 hi2
      rcases eq_or_lt_of_le hi1 with rfl | hlt
      · exact hfail
      · exact h3 i (by omega) (by omega)

lemma wakeUpGo_success (resp : Nat → Nat) :
    ∀ fuel gets sleeps n s, wakeUpGo resp fuel gets sleeps = .success n s →
      gets < n ∧ n ≤ gets + fuel + 1 ∧ resp (n - 1) = 200
        ∧ s = sleeps + (n - 1 - gets) ∧ ∀ i, gets ≤ i → i < n - 1 → resp i ≠ 200 := by
  intro fuel
  induction fuel with
  | zero =>
    intro gets sleeps n s h
    rw [wakeUpGo] at h
    split at h
    · injection h with h1 h2
      have hok : resp gets = 200 := by assumption
      refine ⟨by omega, by omega, ?_, by omega, ?_⟩
      · rw [show n - 1 = gets by omega]
        exact hok
      · intro i hi1 hi2
        omega
    · exact absurd h (by simp)
  | succ f ih =>
    intro gets sleeps n s h
    rw [wakeUpGo] at h
    split at h
    · injection h with h1 h2
      have hok : resp gets = 200 := by assumption
      refine ⟨by omega, by omega, ?_, by omega, ?_⟩
      · rw [show n - 1 = gets by omega]
        exact hok
      · intro i hi1 hi2
        omega
    · have hfail : resp gets ≠ 200 := by assumption
      obtain ⟨h1, h2, h3, h4, h5⟩ := ih (gets + 1) (sleeps + 1) n s h
      refine ⟨by omega, by omega, h3, by omega, ?_⟩
      intro i hi1 hi2
      rcases eq_or_lt_of_le hi1 with rfl | hlt
      · exact hfail
      · exact h5 i (by omega) hi2

/-! ## Helper lemmas about the semaphore protocol -/

lemma countRunning_cons (x : TaskPhase) (rest : List TaskPhase) :
    countRunning (x :: rest)
      = countRunning rest + (if x = .running then 1 else 0) := by
  cases x <;> simp [countRunning]

lemma countRunning_replicate_waiting (n : Nat) :
    countRunning (List.replicate n .waiting) = 0 := by
  induction n with
  | zero => rfl
  | succ m ih => simp [List.replicate, countRunning, ih]

lemma countRunning_set (ph : List TaskPhase) :
    ∀ i a b, ph[i]? = some a →
      countRunning (ph.set i b) + (if a = .running then 1 else 0)
        = countRunning ph + (if b = .running then 1 else 0) := by
  induction ph with
  | nil =>
    intro i a b h
    simp at h
  | cons x rest ih =>
    intro i a b h
    cases i with
    | zero =>
      simp only [List.getElem?_cons_zero, Option.some_inj] at h
      subst h
      simp only [List.set_cons_zero, countRunning_cons]
      omega
    | succ j =>
      simp only [List.getElem?_cons_succ] at h
      simp only [List.set_cons_succ, countRunning_cons]
      have := ih j a b h
      omega

/-! ## Helper lemmas about `embed` -/

lemma embed_sent_error_of_bad_status {V : Type} (token : String)
    (sentence : List Char) (resp : TeiResponse V) (h : resp.status ≠ 200) :
    (embed_sent token sentence resp).2 = .error (.httpError resp.body) := by
  simp [embed_sent, h]

lemma embed_error_isSome {V : Type} (token : String) (rows : List (List Char))
    (resp : List Char → TeiResponse V) (r : List Char) (hr : r ∈ rows)
    (hb : isNonBlank r = true) (hs : (resp r).status ≠ 200) :
    (embed token rows resp).2.2.isSome := by
  have hrj : r ∈ rows.filter isNonBlank := List.mem_filter.mpr ⟨hr, hb⟩
  rw [embed]
  simp only
  rw [Option.isSome_iff_exists]
  have hmem : EmbedError.httpError (resp r).body ∈
      ((rows.filter isNonBlank).map
        (fun u => embed_sent token u (resp u))).filterMap
        (fun p => match p.2 with
          | .error e => some e
          | .ok _ => none) := by
    rw [List.mem_filterMap]
    refine ⟨embed_sent token r (resp r), List.mem_map_of_mem _ hrj, ?_⟩
    rw [embed_sent_error_of_bad_status token r (resp r) hs]
  have hne := List.ne_nil_of_mem hmem
  obtain ⟨e, he⟩ := Option.isSome_iff_exists.mp (List.head?_isSome.mpr hne)
  exact ⟨e, he⟩

/-! ## Claim theorems -/

/-- C3: for every text and every chunk length L ≥ 1, `const_splitter` returns
chunks whose concatenation is exactly the text, in which every chunk except
possibly the last has length exactly L, and whose count is
ceil(len/L) = (len + L - 1) / L — so the empty text yields zero chunks and no
window beyond the text length is produced. -/
theorem const_splitter_spec (L : Nat) (hL : 1 ≤ L) (t : List Char) :
    (const_splitter L t).flatten = t
    ∧ (∀ c ∈ (const_splitter L t).dropLast, c.length = L)
    ∧ (const_splitter L t).length = (t.length + L - 1) / L :=
  ⟨const_splitter_flatten hL t, const_splitter_dropLast hL t,
    const_splitter_length L t⟩

/-- Witness for C3 at L = 2 on the five-character text "abcde". -/
theorem const_splitter_spec_witness :
    (const_splitter 2 "abcde".toList).flatten = "abcde".toList
    ∧ (∀ c ∈ (const_splitter 2 "abcde".toList).dropLast, c.length = 2)
    ∧ (const_splitter 2 "abcde".toList).length
        = ("abcde".toList.length + 2 - 1) / 2 :=
  const_splitter_spec 2 (by decide) "abcde".toList

/-- C5: for every splitter and every input record sequence, the chunk
pipeline's output count equals the sum over input records of the number of
non-empty chunks the splitter produces for that record; output is the orderly
concatenation of the per-record non-empty chunks (so record order and
within-record chunk order are preserved); and the concrete scenario
["ab", "", "cd"] with the constant strategy at chunkLen 1 yields exactly
["a", "b", "c", "d"], the empty string contributing zero chunks. -/
theorem chunk_generator_spec (split : List Char → List (List Char))
    (input xs ys : List (List Char)) (t : List Char) :
    ((chunk_generator split input).length
      = (input.map (fun u => ((split u).filter (fun c => !c.isEmpty)).length)).sum)
    ∧ chunk_generator split (xs ++ ys)
        = chunk_generator split xs ++ chunk_generator split ys
    ∧ chunk_generator split [t] = (split t).filter (fun c => !c.isEmpty)
    ∧ chunk_generator (const_splitter 1) ["ab".toList, [], "cd".toList]
        = ["a".toList, "b".toList, "c".toList, "d".toList] := by
  refine ⟨?_, ?_, ?_, ?_⟩
  · simp only [chunk_generator, List.length_flatten, List.map_map]
    rfl
  · simp [chunk_generator]
  · simp [chunk_generator]
  · decide

/-- C10: for every text and chunk length L ≥ 1, every chunk produced by
`const_splitter` is non-empty and has length at most L; consequently the
non-empty filter of `chunk_generator` drops nothing under the constant
strategy, and the produced chunk count is the sum of ceil(len/L) over the
input records. -/
theorem const_splitter_invariant_spec (L : Nat) (hL : 1 ≤ L) (t : List Char)
    (input : List (List Char)) :
    (∀ c ∈ const_splitter L t, c ≠ [] ∧ c.length ≤ L)
    ∧ chunk_generator (const_splitter L) input
        = (input.map (const_splitter L)).flatten
    ∧ (chunk_generator (const_splitter L) input).length
        = (input.map (fun u => (u.length + L - 1) / L)).sum := by
  have hfilt : chunk_generator (const_splitter L) input
      = (input.map (const_splitter L)).flatten := by
    unfold chunk_generator
    congr 1
    apply List.map_congr_left
    intro u _
    apply List.filter_eq_self.mpr
    intro c hc
    have hne := (const_splitter_mem hL u c hc).1
    rcases c with _ | ⟨x, xs⟩
    · exact absurd rfl hne
    · rfl
  refine ⟨const_splitter_mem hL t, hfilt, ?_⟩
  rw [hfilt, List.length_flatten, List.map_map]
  congr 1
  apply List.map_congr_left
  intro u _
  exact const_splitter_length L u

/-- Witness for C10 at L = 2 on text "abc" and input ["abc", "de"]. -/
theorem const_splitter_invariant_spec_witness :
    (∀ c ∈ const_splitter 2 "abc".toList, c ≠ [] ∧ c.length ≤ 2)
    ∧ chunk_generator (const_splitter 2) ["abc".toList, "de".toList]
        = (["abc".toList, "de".toList].map (const_splitter 2)).flatten
    ∧ (chunk_generator (const_splitter 2) ["abc".toList, "de".toList]).length
        = (["abc".toList, "de".toList].map (fun u => (u.length + 2 - 1) / 2)).sum :=
  const_splitter_invariant_spec 2 (by decide) "abc".toList
    ["abc".toList, "de".toList]

/-- C8: a `post_webhook` call whose `event.action` differs from "update"
returns false and leaves the seen-sha set completely unchanged; more
generally, whenever a call returns false it has no side effect on the set. -/
theorem post_webhook_frame_spec (p : WebhookPayload) (seen : List String) :
    (p.event.action ≠ "update" → post_webhook p seen = (false, seen))
    ∧ ((post_webhook p seen).1 = false → (post_webhook p seen).2 = seen) := by
  constructor
  · intro h
    have hbeq : (p.event.action == "update") = false := by
      rw [beq_eq_false_iff_ne]
      exact h
    simp [post_webhook, validEvent, hbeq]
  · intro h
    by_cases hcond :
        (validEvent p && !(seen.contains p.repo.headSha)) = true
    · exfalso
      rw [post_webhook, hcond] at h
      simp at h
    · have hfalse : (validEvent p && !(seen.contains p.repo.headSha)) = false :=
        Bool.eq_false_iff.mpr hcond
      rw [post_webhook, hfalse]
      simp

/-- Witness for C8 on a "create" event. -/
theorem post_webhook_frame_spec_witness :
    post_webhook ⟨⟨"create", "repo.content"⟩, ⟨"dataset", "sha1", "ds"⟩⟩ ["x"]
      = (false, ["x"]) :=
  (post_webhook_frame_spec _ _).1 (by decide)

/-- C2 counterexample: two `post_webhook` calls carrying the same
`repo.headSha` "sha1" but with `event.action` "create" both return false, so
"for every pair of calls with the same updateIdentifier exactly one returns
true" fails as universally stated — it needs both calls to pass the
action/scope/repo-type guard and the sha to be unseen beforehand. -/
theorem post_webhook_two_invalid_calls_both_false :
    (post_webhook ⟨⟨"create", "repo.content"⟩, ⟨"dataset", "sha1", "ds"⟩⟩ []).1
        = false
    ∧ (post_webhook ⟨⟨"create", "repo.content"⟩, ⟨"dataset", "sha1", "ds"⟩⟩
        (post_webhook ⟨⟨"create", "repo.content"⟩, ⟨"dataset", "sha1", "ds"⟩⟩
          []).2).1 = false := by
  decide

/-- C2 (amended): for two `post_webhook` calls carrying the same
`repo.headSha`, both satisfying the action/scope/repo-type guard, starting
from a seen-set not containing that sha, exactly one (namely the first)
returns true; and in general a call returns true iff the guard conditions
hold and the sha is unseen, the sha being recorded in the seen-set whenever
true is returned. -/
theorem post_webhook_dedup_spec (p q : WebhookPayload) (seen : List String)
    (hsha : q.repo.headSha = p.repo.headSha)
    (hp : validEvent p = true) (hq : validEvent q = true)
    (hfresh : seen.contains p.repo.headSha = false) :
    ((post_webhook p seen).1 = true
      ∧ (post_webhook q (post_webhook p seen).2).1 = false)
    ∧ (∀ p2 s2, (post_webhook p2 s2).1 = true ↔
        (validEvent p2 = true ∧ s2.contains p2.repo.headSha = false))
    ∧ (∀ p2 s2, (post_webhook p2 s2).1 = true →
        (post_webhook p2 s2).2.contains p2.repo.headSha = true) := by
  have hfst : ∀ p2 s2, (post_webhook p2 s2).1
      = (validEvent p2 && !(s2.contains p2.repo.headSha)) := by
    intro p2 s2
    by_cases hcond : (validEvent p2 && !(s2.contains p2.repo.headSha)) = true
    · rw [post_webhook, hcond]
      simp
    · have hfalse := Bool.eq_false_iff.mpr hcond
      rw [post_webhook, hfalse]
      simp
  have hsnd : ∀ p2 s2, (post_webhook p2 s2).1 = true →
      (post_webhook p2 s2).2 = p2.repo.headSha :: s2 := by
    intro p2 s2 h2
    by_cases hcond : (validEvent p2 && !(s2.contains p2.repo.headSha)) = true
    · rw [post_webhook, hcond]
      simp
    · exfalso
      rw [hfst p2 s2, Bool.eq_false_iff.mpr hcond] at h2
      exact Bool.false_ne_true h2
  have h1 : (post_webhook p seen).1 = true := by
    rw [hfst, hp, hfresh]
    rfl
  refine ⟨⟨h1, ?_⟩, ?_, ?_⟩
  · rw [hfst, hsnd p seen h1]
    have : (p.repo.headSha :: seen).contains q.repo.headSha = true := by
      simp [List.contains_cons, hsha]
    rw [this]
    simp
  · intro p2 s2
    rw [hfst]
    constructor
    · intro h2
      rw [Bool.and_eq_true] at h2
      obtain ⟨hv, hns⟩ := h2
      exact ⟨hv, by simpa using hns⟩
    · rintro ⟨hv, hns⟩
      rw [hv, hns]
      rfl
  · intro p2 s2 h2
    rw [hsnd p2 s2 h2]
    simp [List.contains_cons]

/-- Witness for C2 on a valid dataset-update payload posted twice into an
empty seen-set: the first call processes, the duplicate is rejected. -/
theorem post_webhook_dedup_spec_witness :
    (post_webhook ⟨⟨"update", "repo.content.x"⟩, ⟨"dataset", "shaA", "d"⟩⟩
        []).1 = true
    ∧ (post_webhook ⟨⟨"update", "repo.content.x"⟩, ⟨"dataset", "shaA", "d"⟩⟩
        (post_webhook ⟨⟨"update", "repo.content.x"⟩, ⟨"dataset", "shaA", "d"⟩⟩
          []).2).1 = false :=
  (post_webhook_dedup_spec
    ⟨⟨"update", "repo.content.x"⟩, ⟨"dataset", "shaA", "d"⟩⟩
    ⟨⟨"update", "repo.content.x"⟩, ⟨"dataset", "shaA", "d"⟩⟩
    [] rfl (by decide) (by decide) (by decide)).1

/-- C6: `embed` never embeds a blank (empty or whitespace-only) chunk: the
requests it launches are, in order, exactly one per non-blank row of the
chunked dataset, so the embedding-call count equals the non-blank chunk
count and every launched request carries non-blank text. -/
theorem embed_launch_spec {V : Type} (token : String) (rows : List (List Char))
    (resp : List Char → TeiResponse V) :
    ((embed token rows resp).1.map PostRequest.inputs = rows.filter isNonBlank)
    ∧ (embed token rows resp).1.length = (rows.filter isNonBlank).length
    ∧ ∀ req ∈ (embed token rows resp).1, isNonBlank req.inputs = true := by
  have hmap : (embed token rows resp).1.map PostRequest.inputs
      = rows.filter isNonBlank := by
    simp only [embed, List.map_map]
    exact List.map_id _
  refine ⟨hmap, ?_, ?_⟩
  · have hlen := congrArg List.length hmap
    simpa using hlen
  · intro req hreq
    have hmem : req.inputs ∈ rows.filter isNonBlank :=
      hmap ▸ List.mem_map_of_mem PostRequest.inputs hreq
    exact (List.mem_filter.mp hmem).2

/-- C7: `embed_sent` issues one POST with body inputs = the chunk text and
truncate = true under the bearer token; it raises a RuntimeError carrying the
response body iff the HTTP status is non-200 (no retry is modelled at this
layer); and on a 200 status it produces exactly one record pairing the first
element of the response payload with the originating chunk text. -/
theorem embed_sent_spec {V : Type} (token : String) (sentence : List Char)
    (resp : TeiResponse V) :
    (embed_sent token sentence resp).1 = ⟨sentence, true, token⟩
    ∧ ((embed_sent token sentence resp).2 = .error (.httpError resp.body)
        ↔ resp.status ≠ 200)
    ∧ (∀ b, (embed_sent token sentence resp).2 = .error (.httpError b) →
        b = resp.body)
    ∧ (resp.status = 200 → ∀ v rest, resp.payload = v :: rest →
        (embed_sent token sentence resp).2 = .ok ⟨v, sentence⟩) := by
  by_cases h : resp.status = 200
  · refine ⟨rfl, ?_, ?_, ?_⟩
    · simp only [embed_sent, h]
      cases resp.payload <;> simp
    · intro b hb
      simp only [embed_sent, h] at hb
      rcases hp : resp.payload with _ | ⟨v, rest⟩ <;> rw [hp] at hb <;> simp at hb
    · intro _ v rest hp
      simp [embed_sent, h, hp]
  · refine ⟨rfl, ?_, ?_, ?_⟩
    · simp [embed_sent, h]
    · intro b hb
      simp only [embed_sent, h] at hb
      simp_all [embed_sent, h]
    · intro h200
      exact absurd h200 h

/-- Witness for C7: a 200 response with payload head 5 embeds "hi" into the
record pairing 5 with "hi". -/
theorem embed_sent_spec_witness :
    (embed_sent "tok" "hi".toList
        (⟨200, "ok", [5]⟩ : TeiResponse Nat)).2 = .ok ⟨5, "hi".toList⟩ :=
  (embed_sent_spec "tok" "hi".toList ⟨200, "ok", [5]⟩).2.2.2 rfl 5 [] rfl

/-- C1 counterexample: against an endpoint that never returns 200 the probe
issues 41 GET requests before raising `TimeoutError`, refuting "it issues at
most 40 GET requests before either succeeding or failing fatally" — the
counter is incremented after each failed GET and the loop raises only once it
exceeds 40, which happens after the 41st failed request. -/
theorem wake_up_endpoint_counterexample :
    (wake_up_endpoint (fun _ => 503)).gets = 41
    ∧ ¬ (wake_up_endpoint (fun _ => 503)).gets ≤ 40 := by
  decide

/-- C1 (amended): the probe polls the endpoint with a GET until it responds
with status 200, sleeping 2 seconds after each failed poll, and raises a
fatal `TimeoutError` once the attempt counter exceeds 40 — so it issues at
most 41 GET requests before either succeeding or failing fatally: on timeout
it has issued exactly 41 GETs (and 41 sleeps), all of which returned non-200,
and on success the final GET returned 200 after the earlier ones failed. -/
theorem wake_up_endpoint_spec (resp : Nat → Nat) :
    (wake_up_endpoint resp).gets ≤ 41
    ∧ (∀ n s, wake_up_endpoint resp = .timeout n s →
        n = 41 ∧ s = 41 ∧ ∀ i < 41, resp i ≠ 200)
    ∧ (∀ n s, wake_up_endpoint resp = .success n s →
        1 ≤ n ∧ n ≤ 41 ∧ resp (n - 1) = 200 ∧ s = n - 1
          ∧ ∀ i < n - 1, resp i ≠ 200) := by
  refine ⟨?_, ?_, ?_⟩
  · have h := wakeUpGo_gets_le resp 40 0 0
    rw [wake_up_endpoint]
    omega
  · intro n s h
    rw [wake_up_endpoint] at h
    obtain ⟨h1, h2, h3⟩ := wakeUpGo_timeout resp 40 0 0 n s h
    exact ⟨by omega, by omega, fun i hi => h3 i (Nat.zero_le i) (by omega)⟩
  · intro n s h
    rw [wake_up_endpoint] at h
    obtain ⟨h1, h2, h3, h4, h5⟩ := wakeUpGo_success resp 40 0 0 n s h
    exact ⟨by omega, by omega, h3, by omega,
      fun i hi => h5 i (Nat.zero_le i) hi⟩

/-- Witness for C1 against an endpoint that is immediately up: the first GET
returns 200 and the probe stays far below the request bound. -/
theorem wake_up_endpoint_spec_witness :
    (wake_up_endpoint (fun _ => 200)).gets ≤ 41
    ∧ (fun _ => 200 : Nat → Nat) 0 = 200 := by
  refine ⟨(wake_up_endpoint_spec (fun _ => 200)).1, ?_⟩
  have h := (wake_up_endpoint_spec (fun _ => 200)).2.2 1 0 rfl
  exact h.2.2.1

/-- C9: every embedding task holds a slot of the bounded semaphore while its
request is in flight, so in every scheduler state reachable from the launch
of the tasks at most `bound` embedding requests execute concurrently. -/
theorem semaphore_bound_spec (bound n : Nat) (ph : List TaskPhase)
    (h : SemReach bound n ph) : countRunning ph ≤ bound := by
  induction h with
  | init =>
    rw [countRunning_replicate_waiting]
    exact Nat.zero_le _
  | step ph1 ph2 hreach hstep ih =>
    cases hstep with
    | acquire i hw hb =>
      have hset := countRunning_set ph1 i .waiting .running hw
      simp at hset
      omega
    | release i hr =>
      have hset := countRunning_set ph1 i .running .done hr
      simp at hset
      omega

/-- Witness for C9: with bound 2 and three launched tasks, after one task
acquires the semaphore the running count is within the bound. -/
theorem semaphore_bound_spec_witness :
    countRunning ((List.replicate 3 TaskPhase.waiting).set 0 .running) ≤ 2 :=
  semaphore_bound_spec 2 3 _
    (SemReach.step _ _ SemReach.init (SemStep.acquire _ 0 rfl (by decide)))

/-- C4: provided the readiness probe succeeded (the run was not aborted before
the scratch file existed), every `embed_dataset` run ends by deleting the
scratch file — its last event is `deleteScratch` on success and failure alike
— and if any single embedding task fails (a non-blank row whose response is
non-200), the aggregate wait fails the whole run and no `publish` event ever
occurs, so no partial embedded dataset is published. -/
theorem embed_dataset_failure_spec {V : Type} (token : String)
    (probeResp : Nat → Nat) (rows : List (List Char))
    (resp : List Char → TeiResponse V)
    (hprobe : (wake_up_endpoint probeResp).isSuccess = true) :
    (embed_dataset token probeResp rows resp).1.getLast? = some .deleteScratch
    ∧ ((∃ r ∈ rows, isNonBlank r = true ∧ (resp r).status ≠ 200) →
        (embed_dataset token probeResp rows resp).2.isSome = true
        ∧ ∀ recs, RunEvent.publish recs ∉
            (embed_dataset token probeResp rows resp).1) := by
  rcases hemb : embed token rows resp with ⟨calls, appended, err⟩
  have hdef : embed_dataset token probeResp rows resp
      = match embed token rows resp with
        | (_, appended, none) =>
          (([.createScratch] ++ appended.map .appendLine ++ [.publish appended])
            ++ [.deleteScratch], none)
        | (_, appended, some e) =>
          (([.createScratch] ++ appended.map .appendLine)
            ++ [.deleteScratch], some (.embedFailed e)) := by
    rw [embed_dataset, hprobe]
    simp
  rw [hdef, hemb]
  cases err with
  | none =>
    refine ⟨List.getLast?_concat _, ?_⟩
    intro hf
    exfalso
    obtain ⟨r, hr, hb, hs⟩ := hf
    have hsome := embed_error_isSome token rows resp r hr hb hs
    rw [hemb] at hsome
    simp at hsome
  | some e =>
    refine ⟨List.getLast?_concat _, fun _ => ⟨rfl, ?_⟩⟩
    intro recs hmem
    simp only [List.mem_append, List.mem_cons, List.mem_map,
      List.mem_singleton, List.not_mem_nil] at hmem
    rcases hmem with (h0 | ⟨x, _, hx⟩) | h1
    · rcases h0 with h0 | h0
      · exact absurd h0 (by simp)
      · exact h0
    · exact absurd hx (by simp)
    · exact absurd h1 (by simp)

/-- Witness for C4: five one-character rows of which the third gets a 500
response — the run errors, never publishes, and still deletes the scratch
file last. -/
theorem embed_dataset_failure_spec_witness :
    ((embed_dataset "tok" (fun _ => 200)
        ["a".toList, "b".toList, "c".toList, "d".toList, "e".toList]
        (fun r => if r = "c".toList then (⟨500, "err", []⟩ : TeiResponse Nat)
          else ⟨200, "ok", [1]⟩)).1.getLast? = some .deleteScratch)
    ∧ (embed_dataset "tok" (fun _ => 200)
        ["a".toList, "b".toList, "c".toList, "d".toList, "e".toList]
        (fun r => if r = "c".toList then (⟨500, "err", []⟩ : TeiResponse Nat)
          else ⟨200, "ok", [1]⟩)).2.isSome = true := by
  have h := embed_dataset_failure_spec (V := Nat) "tok" (fun _ => 200)
    ["a".toList, "b".toList, "c".toList, "d".toList, "e".toList]
    (fun r => if r = "c".toList then (⟨500, "err", []⟩ : TeiResponse Nat)
      else ⟨200, "ok", [1]⟩) rfl
  exact ⟨h.1, (h.2 (by decide)).1⟩

end HubEtl
